import Mathlib

/-!
Verification of the nuxt-api authentication / HTTP-client module.

Shallow embedding of the runtime composables:
* `extractNestedValue` (src/runtime/helpers/extractNestedValue.ts)
* `useErrorBag` (src/runtime/composables/useErrorBag.ts)
* `useHttp.call` (src/runtime/composables/useHttp.ts)
* `useTokenStorage` (src/runtime/composables/useTokenStorage.ts)
* `prepareContext` and its helpers (the fetch-service file)
* `checkGuest` (src/runtime/composables/useAuthMiddleware.ts)
* the token step of `useAuth.login` (src/runtime/composables/useAuth.ts)

JavaScript runtime values are modelled by the inductive `JSValue`;
truthiness follows JavaScript (`undefined`, `null`, `false`, `0` and the
empty string are falsy).  Property lookup on non-objects is modelled as
`undefined` (prototype members such as `"length"` on strings are not
modelled; the module only traverses plain JSON data).
-/

namespace NuxtApi

mutual

/-- JavaScript values as plain JSON-like data (numbers as integers). -/
inductive JSValue where
  | undefined : JSValue
  | null : JSValue
  | bool : Bool → JSValue
  | num : Int → JSValue
  | str : String → JSValue
  | obj : JSFields → JSValue
  deriving Repr, DecidableEq

/-- Fields of a JavaScript object, in insertion order. -/
inductive JSFields where
  | nil : JSFields
  | cons : String → JSValue → JSFields → JSFields
  deriving Repr, DecidableEq

end

/-- First field named `key`, if any. -/
def JSFields.lookup : JSFields → String → Option JSValue
  | .nil, _ => none
  | .cons k v rest, key => if k = key then some v else rest.lookup key

/-- JavaScript truthiness. -/
def truthy : JSValue → Bool
  | .undefined => false
  | .null => false
  | .bool b => b
  | .num n => n != 0
  | .str s => s != ""
  | .obj _ => true

/-- Property access `v[key]`: first matching field of an object, `undefined`
for a missing field and on every non-object. -/
def getField : JSValue → String → JSValue
  | .obj fields, key =>
      match fields.lookup key with
      | some v => v
      | none => .undefined
  | _, _ => .undefined

/-- Worker for `jsSplit`: walk the characters, cutting at the separator. -/
def jsSplitGo (sep : Char) : List Char → List Char → List String
  | [], acc => [String.mk acc.reverse]
  | c :: rest, acc =>
      if c = sep then String.mk acc.reverse :: jsSplitGo sep rest []
      else jsSplitGo sep rest (c :: acc)

/-- JavaScript `String.prototype.split` with a one-character separator:
`"a.b".split('.') = ["a","b"]`, `"".split('.') = [""]`. -/
def jsSplit (s : String) (sep : Char) : List String :=
  jsSplitGo sep s.data []

/-- Source `extractNestedValue(response, wrapperKey)`
(src/runtime/helpers/extractNestedValue.ts):

    if (!wrapperKey) return response as T
    return wrapperKey
      .split('.')
      .reduce((accumulator, key) => accumulator && accumulator[key], response)

`wrapperKey : Option String` models `string | null`; the `!wrapperKey`
guard is true for `null` and for the empty string.  The JS expression
`accumulator && accumulator[key]` yields the accumulator itself when it is
falsy. -/
def extractNestedValue (response : JSValue) (wrapperKey : Option String) : JSValue :=
  match wrapperKey with
  | none => response
  | some k =>
      if k = "" then response
      else (jsSplit k '.').foldl
        (fun accumulator key =>
          if truthy accumulator then getField accumulator key else accumulator)
        response

/-- JavaScript `String.prototype.toUpperCase` (ASCII). -/
def jsToUpper (s : String) : String := String.mk (s.data.map Char.toUpper)

/-- JavaScript `String.prototype.toLowerCase` (ASCII). -/
def jsToLower (s : String) : String := String.mk (s.data.map Char.toLower)

/-- Sequential key traversal as the spec words it: index with each
`.`-separated segment in turn, a missing segment yielding `undefined`. -/
def seqTraverse (o : JSValue) (segments : List String) : JSValue :=
  segments.foldl getField o

/-- Every value met while traversing `segments` from `v` (the final value
excepted) is either truthy or `undefined` — i.e. the traversal never passes
through `null`, `false`, `0` or `""`. -/
def noFalsyIntermediate : JSValue → List String → Bool
  | _, [] => true
  | v, key :: rest =>
      (truthy v || v == .undefined) && noFalsyIntermediate (getField v key) rest

/-- The module configuration fields the verified components read
(`ModuleOptions`, flattened).  `redirect.login` / `redirect.postLogin` /
`redirect.postLogout` have TypeScript type `string | false`; `false` is
modelled as `none`. -/
structure ModuleOptionsM where
  authMode : String
  headersCfg : List (String × String)
  csrfCookieName : String
  csrfHeaderName : String
  originUrl : Option String
  tokenStorageType : String
  tokenStorageKey : String
  tokenResponseKey : String
  errDefault : String
  errCsrf : String
  errUnauthenticated : String
  redirectIntendedEnabled : Bool
  redirectPostLogin : Option String
  deriving Repr, DecidableEq

/-- The response an ofetch error carries: HTTP status and parsed `_data`. -/
structure RespM where
  status : Int
  responseData : JSValue
  deriving Repr, DecidableEq

/-- A rejected fetch call (`ResponseError`): the `Error#message` string and,
for HTTP failures, the `response`. -/
structure RespErrorM where
  errMessage : String
  response : Option RespM
  deriving Repr, DecidableEq

/-- The per-client mutable state the verified code reads and writes:
the `useProcessing` flag, the error bag's two refs
(`message: Ref<string | null>` and `errors: Ref<Errors | null>`, both
initially `null`), and the shared `useCurrentUser` state slot. -/
structure ClientState where
  processing : Bool
  message : JSValue
  errors : JSValue
  user : JSValue
  deriving Repr, DecidableEq

/-- Source `general(error)`: `message.value = error.message || errorMessages.default`
(the error's own message, or the configured default when blank).
`errors` is left untouched. -/
def general (cfg : ModuleOptionsM) (s : ClientState) (error : RespErrorM) : ClientState :=
  { s with message := if error.errMessage ≠ "" then .str error.errMessage
                      else .str cfg.errDefault }

/-- Source `unprocessable(error)`: destructure `{message, errors}` from
`error.response._data` (ofetch response errors always carry `_data`;
destructuring is modelled by total field lookup), fall back to the
configured default message and to `null` for a missing errors map. -/
def unprocessable (cfg : ModuleOptionsM) (s : ClientState) (error : RespErrorM) : ClientState :=
  let responseData := match error.response with
    | some r => r.responseData
    | none => .undefined
  let m := getField responseData "message"
  let e := getField responseData "errors"
  { s with
    message := if truthy m then m else .str cfg.errDefault
    errors := if truthy e then e else .null }

/-- Source `csrf(error)`: `message.value = errorMessages.csrf`. -/
def csrfError (cfg : ModuleOptionsM) (s : ClientState) : ClientState :=
  { s with message := .str cfg.errCsrf }

/-- Source `unauthenticated()`: clear the shared user state (the source only assigns
when it is not already `null`, which amounts to the same), then
`message.value = errorMessages.unauthenticated`. -/
def unauthenticated (cfg : ModuleOptionsM) (s : ClientState) : ClientState :=
  { s with user := .null, message := .str cfg.errUnauthenticated }

/-- Source `byStatusCode(error)`: dispatch on `error?.response?.status`. -/
def byStatusCode (cfg : ModuleOptionsM) (s : ClientState) (error : RespErrorM) : ClientState :=
  match error.response with
  | some r =>
      if r.status = 422 then unprocessable cfg s error
      else if r.status = 419 then csrfError cfg s
      else if r.status = 401 then unauthenticated cfg s
      else general cfg s error
  | none => general cfg s error

/-- Source `reset()`: `message.value = null; errors.value = null`. -/
def resetBag (s : ClientState) : ClientState :=
  { s with message := .null, errors := .null }

/-- Source `handle(error?)`: no-op without an error; with one, dispatch by status
code when `error.response?.status` is truthy, otherwise `general`. -/
def handle (cfg : ModuleOptionsM) (s : ClientState) (error : Option RespErrorM) : ClientState :=
  match error with
  | none => s
  | some e =>
      match e.response with
      | some r => if r.status ≠ 0 then byStatusCode cfg s e else general cfg s e
      | none => general cfg s e

/-- Where `useHttp.call` places the payload: GET and DELETE send it as
query parameters, the other verbs as the request body. -/
inductive PayloadPlacement where
  | noPayload : PayloadPlacement
  | query : JSValue → PayloadPlacement
  | body : JSValue → PayloadPlacement
  deriving Repr, DecidableEq

/-- Source `callOptions` of `useHttp.call`. -/
def callOptions (method : String) (payload : Option JSValue) : PayloadPlacement :=
  match payload with
  | none => .noPayload
  | some p => if method = "get" ∨ method = "delete" then .query p else .body p

/-- Everything one `useHttp.call` invocation does to the client state:
the state at the moment the transport call is dispatched, the final state,
and what the caller sees (the response, or the re-thrown error). -/
structure CallResult where
  atDispatch : ClientState
  finalState : ClientState
  outcome : Except RespErrorM JSValue
  placement : PayloadPlacement
  deriving Repr

/-- Source `useHttp.call(request, method, payload?, options?)`
(src/runtime/composables/useHttp.ts):

    try {
      startProcessing()
      const callOptions = ...
      const response = await useApiFetch(request, {method, ...callOptions, ...options})
      errorBag.reset()
      return response
    } catch (error) {
      stopProcessing()
      errorBag.handle(error)
      throw error
    }

The transport's behaviour is the `transport` argument. -/
def call (cfg : ModuleOptionsM) (s : ClientState) (method : String)
    (payload : Option JSValue) (transport : Except RespErrorM JSValue) : CallResult :=
  let s1 : ClientState := { s with processing := true }
  match transport with
  | .ok response =>
      { atDispatch := s1
        finalState := resetBag s1
        outcome := .ok response
        placement := callOptions method payload }
  | .error e =>
      { atDispatch := s1
        finalState := handle cfg { s1 with processing := false } (some e)
        outcome := .error e
        placement := callOptions method payload }

/-- Verb `get(request, query?, options?)` delegates to `call` with method `get`. -/
def httpGet (cfg : ModuleOptionsM) (s : ClientState) (payload : Option JSValue)
    (transport : Except RespErrorM JSValue) : CallResult :=
  call cfg s "get" payload transport

/-- Verb `post` delegates to `call` with method `post`. -/
def httpPost (cfg : ModuleOptionsM) (s : ClientState) (payload : Option JSValue)
    (transport : Except RespErrorM JSValue) : CallResult :=
  call cfg s "post" payload transport

/-- Verb `put` delegates to `call` with method `put`. -/
def httpPut (cfg : ModuleOptionsM) (s : ClientState) (payload : Option JSValue)
    (transport : Except RespErrorM JSValue) : CallResult :=
  call cfg s "put" payload transport

/-- Verb `patch` delegates to `call` with method `patch`. -/
def httpPatch (cfg : ModuleOptionsM) (s : ClientState) (payload : Option JSValue)
    (transport : Except RespErrorM JSValue) : CallResult :=
  call cfg s "patch" payload transport

/-- Verb `destroy` delegates to `call` with method `delete`. -/
def httpDestroy (cfg : ModuleOptionsM) (s : ClientState) (payload : Option JSValue)
    (transport : Except RespErrorM JSValue) : CallResult :=
  call cfg s "delete" payload transport

/-! ## Token storage (src/runtime/composables/useTokenStorage.ts) -/

/-- The stores `useTokenStorage` touches: the cookie jar (a missing entry
models an absent/removed cookie — Nuxt's `useCookie` reads `null` there,
which is nullish, like `undefined`), the browser's `window.localStorage`,
and the shared `useState` slot keyed by `token.storageKey` (`undefined`
initially).  `isServer` is `import.meta.server`. -/
structure StorageWorld where
  cookies : List (String × String)
  localStore : List (String × String)
  tokenState : Option String
  deriving Repr, DecidableEq

/-- Remove every entry for `key` from an association list. -/
def eraseKey (l : List (String × String)) (key : String) : List (String × String) :=
  l.filter (fun p => p.1 ≠ key)

/-- Insert/overwrite `key := v` in an association list. -/
def upsertKey (l : List (String × String)) (key v : String) : List (String × String) :=
  (key, v) :: eraseKey l key

/-- Source `cookieProvider.get(tokenKey)`: read the cookie (absent ⇒ nullish). -/
def cookieProviderGet (w : StorageWorld) (tokenKey : String) : Option String :=
  w.cookies.lookup tokenKey

/-- Source `cookieProvider.set(tokenKey, token?)`: assigning `undefined` to a Nuxt
cookie ref removes the cookie; any string (the empty string included) is
stored verbatim. -/
def cookieProviderSet (w : StorageWorld) (tokenKey : String) (token : Option String) :
    StorageWorld :=
  match token with
  | none => { w with cookies := eraseKey w.cookies tokenKey }
  | some t => { w with cookies := upsertKey w.cookies tokenKey t }

/-- Source `localStorageProvider.get(tokenKey)`: `undefined` on the server;
otherwise `window.localStorage.getItem(tokenKey) ?? undefined`. -/
def localStorageProviderGet (isServer : Bool) (w : StorageWorld) (tokenKey : String) :
    Option String :=
  if isServer then none else w.localStore.lookup tokenKey

/-- Source `localStorageProvider.set(tokenKey, token?)`: no-op on the server;
a falsy token (`undefined` or `''`) removes the item, a non-empty string is
stored. -/
def localStorageProviderSet (isServer : Bool) (w : StorageWorld) (tokenKey : String)
    (token : Option String) : StorageWorld :=
  if isServer then w
  else
    match token with
    | none => { w with localStore := eraseKey w.localStore tokenKey }
    | some t =>
        if t = "" then { w with localStore := eraseKey w.localStore tokenKey }
        else { w with localStore := upsertKey w.localStore tokenKey t }

/-- Provider dispatch in `useTokenStorage`: `localStorage` selects the
localStorage provider, anything else the cookie provider. -/
def providerGet (cfg : ModuleOptionsM) (isServer : Bool) (w : StorageWorld) : Option String :=
  if cfg.tokenStorageType = "localStorage" then
    localStorageProviderGet isServer w cfg.tokenStorageKey
  else cookieProviderGet w cfg.tokenStorageKey

/-- Provider dispatch for `set`. -/
def providerSet (cfg : ModuleOptionsM) (isServer : Bool) (w : StorageWorld)
    (token : Option String) : StorageWorld :=
  if cfg.tokenStorageType = "localStorage" then
    localStorageProviderSet isServer w cfg.tokenStorageKey token
  else cookieProviderSet w cfg.tokenStorageKey token

/-- Source `useTokenStorage().get()`:
`provider.get(token.storageKey) ?? tokenState.value`. -/
def tokenStorageGet (cfg : ModuleOptionsM) (isServer : Bool) (w : StorageWorld) :
    Option String :=
  match providerGet cfg isServer w with
  | some v => some v
  | none => w.tokenState

/-- Source `useTokenStorage().set(tokenData?)`:
`provider.set(token.storageKey, tokenData); tokenState.value = tokenData`. -/
def tokenStorageSet (cfg : ModuleOptionsM) (isServer : Bool) (w : StorageWorld)
    (tokenData : Option String) : StorageWorld :=
  { providerSet cfg isServer w tokenData with tokenState := tokenData }

/-! ## Route guard policy (src/runtime/composables/useAuthMiddleware.ts) -/

/-- The slice of a `RouteLocationNormalized` that `checkGuest` reads:
`path` and the `redirect` query entry (`none` models an absent key, whose
read yields `undefined`). -/
structure RouteM where
  path : String
  queryRedirect : Option String
  deriving Repr, DecidableEq

/-- Result type `AuthCheckResult` as produced by `checkGuest` (its `redirectTo` is a
path string or `null`). -/
structure AuthCheckResult where
  isAuthenticated : Bool
  redirectTo : Option String
  deriving Repr, DecidableEq

/-- JS truthiness of a `string | false | undefined` value: an absent or
empty string is falsy. -/
def truthyStr : Option String → Bool
  | none => false
  | some s => s != ""

/-- Source `checkGuest(to)`:

    if (!isLoggedIn.value) return {isAuthenticated: false, redirectTo: null}
    const {intendedEnabled, postLogin} = options.redirect
    if (intendedEnabled) {
      const requestedRoute = to.query.redirect as string
      if (requestedRoute && requestedRoute !== to.path)
        return {isAuthenticated: true, redirectTo: requestedRoute}
    }
    if (postLogin) return {isAuthenticated: true, redirectTo: postLogin}
    return {isAuthenticated: true, redirectTo: null}
-/
def checkGuest (cfg : ModuleOptionsM) (isLoggedIn : Bool) (route : RouteM) : AuthCheckResult :=
  if !isLoggedIn then { isAuthenticated := false, redirectTo := none }
  else if cfg.redirectIntendedEnabled
      ∧ truthyStr route.queryRedirect
      ∧ route.queryRedirect ≠ some route.path then
    { isAuthenticated := true, redirectTo := route.queryRedirect }
  else if truthyStr cfg.redirectPostLogin then
    { isAuthenticated := true, redirectTo := cfg.redirectPostLogin }
  else { isAuthenticated := true, redirectTo := none }

/-- The `checkGuest` contract exactly as the spec words it: a carried
`redirect` query value (of whatever content) different from the route's own
path wins; else a configured post-login path; else no redirect. -/
def checkGuestSpec (cfg : ModuleOptionsM) (isLoggedIn : Bool) (route : RouteM) : AuthCheckResult :=
  if !isLoggedIn then { isAuthenticated := false, redirectTo := none }
  else
    match route.queryRedirect with
    | some v =>
        if cfg.redirectIntendedEnabled ∧ v ≠ route.path then
          { isAuthenticated := true, redirectTo := some v }
        else
          match cfg.redirectPostLogin with
          | some p => { isAuthenticated := true, redirectTo := some p }
          | none => { isAuthenticated := true, redirectTo := none }
    | none =>
        match cfg.redirectPostLogin with
        | some p => { isAuthenticated := true, redirectTo := some p }
        | none => { isAuthenticated := true, redirectTo := none }

/-- Function `checkGuest` as amended: the intended-redirect branch requires a
non-empty `redirect` query value, and the post-login branch a non-empty
configured path (matching JavaScript truthiness of both strings). -/
def checkGuestAmended (cfg : ModuleOptionsM) (isLoggedIn : Bool) (route : RouteM) :
    AuthCheckResult :=
  if !isLoggedIn then { isAuthenticated := false, redirectTo := none }
  else
    match route.queryRedirect with
    | some v =>
        if cfg.redirectIntendedEnabled ∧ v ≠ "" ∧ v ≠ route.path then
          { isAuthenticated := true, redirectTo := some v }
        else
          match cfg.redirectPostLogin with
          | some p =>
              if p ≠ "" then { isAuthenticated := true, redirectTo := some p }
              else { isAuthenticated := true, redirectTo := none }
          | none => { isAuthenticated := true, redirectTo := none }
    | none =>
        match cfg.redirectPostLogin with
        | some p =>
            if p ≠ "" then { isAuthenticated := true, redirectTo := some p }
            else { isAuthenticated := true, redirectTo := none }
        | none => { isAuthenticated := true, redirectTo := none }

/-! ## Token step of `useAuth.login` (src/runtime/composables/useAuth.ts) -/

/-- In token mode, after a successful login POST:

    const tokenValue = extractNestedValue<string>(response, token.responseKey)
    await useTokenStorage().set(tokenValue)

The TypeScript signature types the extracted value as `string`; a string
extraction is passed through, an `undefined` one (path missing) reaches
`set` as `undefined`. -/
def jsTokenArg : JSValue → Option String
  | .str s => some s
  | _ => none

/-- The storage effect of `useAuth.login`'s token-mode branch on a
successful login response. -/
def loginTokenStep (cfg : ModuleOptionsM) (isServer : Bool) (w : StorageWorld)
    (response : JSValue) : StorageWorld :=
  tokenStorageSet cfg isServer w
    (jsTokenArg (extractNestedValue response (some cfg.tokenResponseKey)))

/-! ## Request preparer (`prepareContext` and helpers, fetch-service file) -/

/-- A request body: absent, a structured (JSON) payload, or a multipart
`FormData` payload (an ordered list of text fields). -/
inductive BodyM where
  | noBody : BodyM
  | jsonBody : JSValue → BodyM
  | formData : List (String × String) → BodyM
  deriving Repr, DecidableEq

/-- The slice of `context.options` that `prepareContext` reads and writes.
`headers` are the extracted plain-object entries (a `Headers` instance input
is modelled by its already-lowercased entry list, as `extractHeaders`
produces). -/
structure FetchOptionsM where
  method : Option String
  headers : List (String × String)
  body : BodyM
  deriving Repr, DecidableEq

/-- The ambient context `prepareContext` draws on: execution side, the
stores (the CSRF cookie lives in the cookie jar, the bearer token wherever
`useTokenStorage` put it), the cookie jar as it stands after the CSRF
priming request (unchanged jar models a failed priming, whose error is
caught and logged), the current request's own origin (`useRequestURL`),
and the incoming `cookie` header (`useRequestHeaders(['cookie'])`). -/
structure PrepareEnv where
  isServer : Bool
  world : StorageWorld
  cookiesAfterPrime : List (String × String)
  requestOrigin : String
  incomingCookie : Option String
  deriving Repr, DecidableEq

/-- Object-spread update `{...l, [key]: v}`: an existing key keeps its
position with its value overwritten, a new key is appended. -/
def objUpsert (l : List (String × String)) (key v : String) : List (String × String) :=
  if (l.lookup key).isSome then
    l.map (fun p => if p.1 = key then (key, v) else p)
  else l ++ [(key, v)]

/-- Object spread `{...base, ...extra}`. -/
def objMerge (base extra : List (String × String)) : List (String × String) :=
  extra.foldl (fun acc p => objUpsert acc p.1 p.2) base

/-- Construction `Headers#append`: header names are lowercased; appending to an existing
header joins the values with `", "`. -/
def headersAppend (l : List (String × String)) (key v : String) : List (String × String) :=
  let k := jsToLower key
  match l.lookup k with
  | some old => l.map (fun p => if p.1 = k then (k, old ++ ", " ++ v) else p)
  | none => l ++ [(k, v)]

/-- Construction `new Headers(obj)`: append every entry in order. -/
def mkHeaders (entries : List (String × String)) : List (String × String) :=
  entries.foldl (fun acc p => headersAppend acc p.1 p.2) []

/-- Source `attachCsrfHeader(headers, config)`: read the CSRF cookie; when falsy,
prime it (`fetchCsrfCookie`) and re-read; when still falsy, warn and return
the headers unchanged; otherwise spread the CSRF header in. -/
def attachCsrfHeader (headers : List (String × String)) (cfg : ModuleOptionsM)
    (env : PrepareEnv) : List (String × String) :=
  let firstRead := env.world.cookies.lookup cfg.csrfCookieName
  let reRead :=
    if truthyStr firstRead then firstRead
    else env.cookiesAfterPrime.lookup cfg.csrfCookieName
  match reRead with
  | some t => if t = "" then headers else objUpsert headers cfg.csrfHeaderName t
  | none => headers

/-- Source `attachServerHeaders(headers, config)`: spread in `Referer`/`Origin`
(the configured origin, else the request's own) and the forwarded incoming
`cookie` header. -/
def attachServerHeaders (headers : List (String × String)) (cfg : ModuleOptionsM)
    (env : PrepareEnv) : List (String × String) :=
  let origin := cfg.originUrl.getD env.requestOrigin
  let h := objUpsert (objUpsert headers "Referer" origin) "Origin" origin
  match env.incomingCookie with
  | some c => objUpsert h "cookie" c
  | none => h

/-- Source `attachToken(headers)`: read the bearer token from `useTokenStorage`;
a falsy token leaves the headers unchanged (debug log), otherwise spread in
`Authorization: Bearer <token>`. -/
def attachToken (headers : List (String × String)) (cfg : ModuleOptionsM)
    (env : PrepareEnv) : List (String × String) :=
  match tokenStorageGet cfg env.isServer env.world with
  | some t => if t = "" then headers else objUpsert headers "Authorization" ("Bearer " ++ t)
  | none => headers

/-- The lowercased logical method, defaulting to `get`:
`context.options.method?.toLowerCase() ?? 'get'`. -/
def logicalMethod (options : FetchOptionsM) : String :=
  match options.method with
  | some m => jsToLower m
  | none => "get"

/-- Source `prepareContext(context, config)` (fetch-service file, the `onRequest`
step): normalize the headers, rewrite a `FormData` request to a POST
carrying a `_method` field, then attach cookie-mode (server headers, CSRF)
or token-mode (bearer) material.  The CSRF method check uses the logical
method captured *before* the `FormData` rewrite. -/
def prepareContext (options : FetchOptionsM) (cfg : ModuleOptionsM)
    (env : PrepareEnv) : FetchOptionsM :=
  let method := logicalMethod options
  let headers1 := mkHeaders
    (objMerge (objMerge [("Accept", "application/json")] cfg.headersCfg) options.headers)
  let methodBody : Option String × BodyM :=
    match options.body with
    | .formData fields => (some "POST", .formData (fields ++ [("_method", jsToUpper method)]))
    | b => (options.method, b)
  let headers2 :=
    if cfg.authMode = "cookie" then
      let hs :=
        if env.isServer then mkHeaders (attachServerHeaders headers1 cfg env) else headers1
      if method = "post" ∨ method = "delete" ∨ method = "put" ∨ method = "patch" then
        mkHeaders (attachCsrfHeader hs cfg env)
      else hs
    else if cfg.authMode = "token" then
      mkHeaders (attachToken headers1 cfg env)
    else headers1
  { method := methodBody.1, headers := headers2, body := methodBody.2 }

/-! ## Concrete fixtures and helper lemmas -/

/-- A token-mode configuration (the test suite's defaults, token mode). -/
def cfgToken : ModuleOptionsM where
  authMode := "token"
  headersCfg := []
  csrfCookieName := "XSRF-TOKEN"
  csrfHeaderName := "X-XSRF-TOKEN"
  originUrl := none
  tokenStorageType := "cookie"
  tokenStorageKey := "AUTH_TOKEN"
  tokenResponseKey := "token"
  errDefault := "Something went wrong."
  errCsrf := "Page expired. Please refresh and try again."
  errUnauthenticated := "Unauthenticated."
  redirectIntendedEnabled := true
  redirectPostLogin := some "/dashboard"

/-- The same configuration in cookie auth mode. -/
def cfgCookie : ModuleOptionsM := { cfgToken with authMode := "cookie" }

/-- The same configuration with localStorage token backing. -/
def cfgLocal : ModuleOptionsM := { cfgToken with tokenStorageType := "localStorage" }

/-- Empty stores. -/
def emptyWorld : StorageWorld where
  cookies := []
  localStore := []
  tokenState := none

/-- A client-side preparation environment over empty stores. -/
def envClient : PrepareEnv where
  isServer := false
  world := emptyWorld
  cookiesAfterPrime := []
  requestOrigin := "http://localhost:3000"
  incomingCookie := none

/-- The client state at construction: idle, empty error bag, no user. -/
def stateInit : ClientState where
  processing := false
  message := .null
  errors := .null
  user := .null

/-- The status an error carries, when it carries a response. -/
def errorStatus (e : RespErrorM) : Option Int :=
  e.response.map (·.status)

theorem lookup_upsertKey (l : List (String × String)) (k v : String) :
    (upsertKey l k v).lookup k = some v := by
  simp [upsertKey, eraseKey, List.lookup]

theorem lookup_eraseKey (l : List (String × String)) (k : String) :
    (eraseKey l k).lookup k = none := by
  induction l with
  | nil => rfl
  | cons a t ih =>
      unfold eraseKey at ih ⊢
      by_cases h : a.1 = k
      · simpa [List.filter_cons, h] using ih
      · have h' : (k == a.1) = false := by
          simp only [beq_eq_false_iff_ne, ne_eq]
          exact fun e => h e.symm
        simpa [List.filter_cons, h, List.lookup, h'] using ih

/-- The source's short-circuiting reduce agrees with plain sequential
indexing whenever the traversal never passes through a falsy value other
than `undefined`. -/
theorem foldl_shortcircuit_eq (segs : List String) (o : JSValue)
    (h : noFalsyIntermediate o segs = true) :
    segs.foldl (fun accumulator key =>
        if truthy accumulator then getField accumulator key else accumulator) o
      = segs.foldl getField o := by
  induction segs generalizing o with
  | nil => rfl
  | cons s rest ih =>
      simp only [noFalsyIntermediate, Bool.and_eq_true, Bool.or_eq_true, beq_iff_eq] at h
      obtain ⟨h1, h2⟩ := h
      simp only [List.foldl]
      rcases h1 with ht | hu
      · rw [if_pos ht]
        exact ih _ h2
      · subst hu
        simp only [truthy, if_neg]
        have hg : getField JSValue.undefined s = JSValue.undefined := rfl
        rw [hg] at h2 ⊢
        simpa using ih _ h2


/-! ## Error-classifier lemmas -/

theorem truthy_ne_null {v : JSValue} (h : truthy v = true) : v ≠ JSValue.null := by
  cases v <;> simp_all [truthy]

theorem handle_some_none (cfg : ModuleOptionsM) (s : ClientState) (m : String) :
    handle cfg s (some ⟨m, none⟩) = general cfg s ⟨m, none⟩ := rfl

theorem handle_some_some (cfg : ModuleOptionsM) (s : ClientState) (m : String)
    (st : Int) (d : JSValue) :
    handle cfg s (some ⟨m, some ⟨st, d⟩⟩)
      = if st ≠ 0 then byStatusCode cfg s ⟨m, some ⟨st, d⟩⟩
        else general cfg s ⟨m, some ⟨st, d⟩⟩ := rfl

theorem byStatusCode_some (cfg : ModuleOptionsM) (s : ClientState) (m : String)
    (st : Int) (d : JSValue) :
    byStatusCode cfg s ⟨m, some ⟨st, d⟩⟩
      = if st = 422 then unprocessable cfg s ⟨m, some ⟨st, d⟩⟩
        else if st = 419 then csrfError cfg s
        else if st = 401 then unauthenticated cfg s
        else general cfg s ⟨m, some ⟨st, d⟩⟩ := rfl

theorem handle_preserves_processing (cfg : ModuleOptionsM) (s : ClientState)
    (e : Option RespErrorM) : (handle cfg s e).processing = s.processing := by
  rcases e with _ | ⟨m, r⟩
  · rfl
  · rcases r with _ | ⟨st, d⟩
    · rfl
    · rw [handle_some_some]
      split_ifs with h0
      · rw [byStatusCode_some]
        split_ifs <;> rfl
      · rfl

theorem handle_some_message_ne_null (cfg : ModuleOptionsM) (s : ClientState)
    (e : RespErrorM) : (handle cfg s (some e)).message ≠ JSValue.null := by
  rcases e with ⟨m, r⟩
  have hgen : ∀ m' r', (general cfg s ⟨m', r'⟩).message ≠ JSValue.null := by
    intro m' r'
    unfold general
    split_ifs <;> simp
  rcases r with _ | ⟨st, d⟩
  · rw [handle_some_none]; exact hgen m none
  · rw [handle_some_some]
    split_ifs with h0
    · rw [byStatusCode_some]
      split_ifs with h1 h2 h3
      · unfold unprocessable
        by_cases ht : truthy (getField d "message") = true
        · simpa [ht] using truthy_ne_null ht
        · simp [Bool.not_eq_true] at ht
          simp [ht]
      · simp [csrfError]
      · simp [unauthenticated]
      · exact hgen m _
    · exact hgen m _

theorem handle_non422_errors_eq (cfg : ModuleOptionsM) (s : ClientState)
    (e : RespErrorM) (h : errorStatus e ≠ some 422) :
    (handle cfg s (some e)).errors = s.errors := by
  rcases e with ⟨m, r⟩
  rcases r with _ | ⟨st, d⟩
  · rfl
  · simp only [errorStatus, Option.map_some'] at h
    have hst : st ≠ 422 := fun hh => h (by rw [hh])
    rw [handle_some_some]
    split_ifs with h0
    · rw [byStatusCode_some]
      split_ifs with h1 h2 h3
      · exact absurd h1 hst
      · rfl
      · rfl
      · rfl
    · rfl

/-! ## The claims -/

/-- C1 (counterexample): a GET request with a `FormData` body is rewritten
too — the transport method becomes POST and `_method=GET` is appended —
although GET is not among PUT/PATCH/DELETE. -/
theorem claim1_counterexample :
    logicalMethod ⟨some "get", [], .formData []⟩ = "get"
    ∧ (prepareContext ⟨some "get", [], .formData []⟩ cfgToken envClient).method = some "POST"
    ∧ (prepareContext ⟨some "get", [], .formData []⟩ cfgToken envClient).body
        = .formData [("_method", "GET")]
    ∧ (prepareContext ⟨some "get", [], .formData []⟩ cfgToken envClient).method
        ≠ (⟨some "get", [], .formData []⟩ : FetchOptionsM).method := by
  decide

/-- C1 (amended): `prepareContext` rewrites every request whose body is a
multipart `FormData` payload, whatever the logical method — the transport
method becomes POST and a `_method` field carrying the uppercased logical
method is appended; requests with any other body are never rewritten. -/
theorem claim1_formdata_rewrite (options : FetchOptionsM) (cfg : ModuleOptionsM)
    (env : PrepareEnv) :
    (∀ fields, options.body = .formData fields →
        (prepareContext options cfg env).method = some "POST"
      ∧ (prepareContext options cfg env).body
          = .formData (fields ++ [("_method", jsToUpper (logicalMethod options))]))
    ∧ ((∀ fields, options.body ≠ .formData fields) →
        (prepareContext options cfg env).method = options.method
      ∧ (prepareContext options cfg env).body = options.body) := by
  constructor
  · intro fields hf
    constructor <;> simp [prepareContext, hf]
  · intro hnf
    cases hb : options.body with
    | formData f => exact absurd hb (hnf f)
    | noBody => constructor <;> simp [prepareContext, hb]
    | jsonBody v => constructor <;> simp [prepareContext, hb]

/-- Instance of C1 (amended) on scenario F: a PUT with a multipart body. -/
theorem claim1_formdata_rewrite_witness :
    (prepareContext ⟨some "put", [], .formData [("name", "test")]⟩ cfgToken envClient).method
        = some "POST"
    ∧ (prepareContext ⟨some "put", [], .formData [("name", "test")]⟩ cfgToken envClient).body
        = .formData [("name", "test"), ("_method", "PUT")] := by
  have h := (claim1_formdata_rewrite ⟨some "put", [], .formData [("name", "test")]⟩
    cfgToken envClient).1 [("name", "test")] rfl
  exact ⟨h.1, by rw [h.2]; decide⟩

/-- C2 (counterexample): the error bag is not reset before the transport
call — at the moment a new request is dispatched the previous message is
still recorded, not `null`. -/
theorem claim2_counterexample :
    (call cfgToken { stateInit with message := .str "previous error" } "get" none
        (.ok (.obj .nil))).atDispatch.message = .str "previous error"
    ∧ JSValue.str "previous error" ≠ JSValue.null := by
  decide

/-- C2 (amended): for every verb call, `useHttp.call` leaves the error bag
untouched when the request starts (only `processing` is raised); `reset`
runs after — and only after — a successful transport call, clearing both
fields. -/
theorem claim2_reset_on_success_only (cfg : ModuleOptionsM) (s : ClientState)
    (method : String) (payload : Option JSValue)
    (t : Except RespErrorM JSValue) (v : JSValue) :
    (call cfg s method payload t).atDispatch.message = s.message
    ∧ (call cfg s method payload t).atDispatch.errors = s.errors
    ∧ (call cfg s method payload t).atDispatch.processing = true
    ∧ (call cfg s method payload (.ok v)).finalState.message = JSValue.null
    ∧ (call cfg s method payload (.ok v)).finalState.errors = JSValue.null := by
  cases t <;> simp [call, resetBag]

/-- C3: classifying a 401 sets the configured unauthenticated text and
clears the shared user slot to null; classifying a 419 sets the configured
CSRF text and leaves the user (and everything else but the message)
unchanged. -/
theorem claim3_401_clears_user_419_does_not (cfg : ModuleOptionsM) (s : ClientState)
    (msg1 msg2 : String) (d1 d2 : JSValue) :
    handle cfg s (some ⟨msg1, some ⟨401, d1⟩⟩)
      = { s with user := .null, message := .str cfg.errUnauthenticated }
    ∧ handle cfg s (some ⟨msg2, some ⟨419, d2⟩⟩)
      = { s with message := .str cfg.errCsrf } := by
  constructor
  · rw [handle_some_some, if_pos (by decide), byStatusCode_some]
    norm_num [unauthenticated]
  · rw [handle_some_some, if_pos (by decide), byStatusCode_some]
    norm_num [csrfError]

/-- C4: for every verb call, on transport failure `useHttp.call` drops
`processing` to false, runs the error classifier on that state, and
re-throws the original error unchanged; on success `processing` stays
true. -/
theorem claim4_failure_success_flow (cfg : ModuleOptionsM) (s : ClientState)
    (method : String) (payload : Option JSValue) (e : RespErrorM) (v : JSValue) :
    (call cfg s method payload (.error e)).finalState.processing = false
    ∧ (call cfg s method payload (.error e)).finalState
        = handle cfg { s with processing := false } (some e)
    ∧ (call cfg s method payload (.error e)).outcome = .error e
    ∧ (call cfg s method payload (.ok v)).finalState.processing = true
    ∧ (call cfg s method payload (.ok v)).outcome = .ok v := by
  have h1 : (call cfg s method payload (.error e)).finalState
      = handle cfg { s with processing := false } (some e) := rfl
  refine ⟨?_, h1, rfl, rfl, rfl⟩
  rw [h1, handle_preserves_processing]

/-- C5 (counterexample): a 422 leaves field errors recorded; classifying a
subsequent 401 on the same bag does not clear them, so right after a
non-422 classification `fieldErrors` is still non-null. -/
theorem claim5_counterexample :
    (handle cfgToken
        (handle cfgToken stateInit
          (some ⟨"Unprocessable", some ⟨422,
            .obj (.cons "message" (.str "bad")
              (.cons "errors" (.obj (.cons "email" (.str "required") .nil)) .nil))⟩⟩))
        (some ⟨"Unauthorized", some ⟨401, .obj .nil⟩⟩)).errors
      = .obj (.cons "email" (.str "required") .nil)
    ∧ errorStatus ⟨"Unauthorized", some ⟨401, .obj .nil⟩⟩ ≠ some 422
    ∧ JSValue.obj (.cons "email" (.str "required") .nil) ≠ JSValue.null := by
  decide

/-- C5 (amended): after any classification the message is non-null; a
non-422 classification leaves `fieldErrors` exactly as it was, so from a
reset bag `fieldErrors` can only become non-null through a 422. -/
theorem claim5_message_nonnull_errors_from_422 (cfg : ModuleOptionsM) (s : ClientState)
    (e : RespErrorM) :
    (handle cfg s (some e)).message ≠ JSValue.null
    ∧ (errorStatus e ≠ some 422 → (handle cfg s (some e)).errors = s.errors)
    ∧ (s.errors = JSValue.null → (handle cfg s (some e)).errors ≠ JSValue.null →
        errorStatus e = some 422) := by
  refine ⟨handle_some_message_ne_null cfg s e, handle_non422_errors_eq cfg s e, ?_⟩
  intro hnull hne
  by_cases h422 : errorStatus e = some 422
  · exact h422
  · exact absurd (by rw [handle_non422_errors_eq cfg s e h422, hnull]) hne

/-- Instance of C5 (amended) on a statusless network error. -/
theorem claim5_witness :
    (handle cfgToken stateInit (some ⟨"Network error", none⟩)).message ≠ JSValue.null
    ∧ (errorStatus ⟨"Network error", none⟩ ≠ some 422 →
        (handle cfgToken stateInit (some ⟨"Network error", none⟩)).errors = stateInit.errors)
    ∧ (stateInit.errors = JSValue.null →
        (handle cfgToken stateInit (some ⟨"Network error", none⟩)).errors ≠ JSValue.null →
        errorStatus ⟨"Network error", none⟩ = some 422) :=
  claim5_message_nonnull_errors_from_422 cfgToken stateInit ⟨"Network error", none⟩


/-- C6 (counterexample): a falsy intermediate (`null` under key `a`) makes
the extractor return that falsy value, while sequential traversal of the
missing segment `b` yields `undefined` — the two disagree. -/
theorem claim6_counterexample :
    extractNestedValue (.obj (.cons "a" .null .nil)) (some "a.b") = .null
    ∧ seqTraverse (.obj (.cons "a" .null .nil)) (jsSplit "a.b" '.') = .undefined
    ∧ extractNestedValue (.obj (.cons "a" .null .nil)) (some "a.b")
        ≠ seqTraverse (.obj (.cons "a" .null .nil)) (jsSplit "a.b" '.') := by
  decide

/-- C6 (amended): for every non-empty dot-path key whose traversal never
passes through a falsy value other than `undefined`, the extractor equals
plain sequential indexing (missing segments propagate as `undefined`). -/
theorem claim6_extract_matches_traversal (o : JSValue) (k : String) (hk : k ≠ "")
    (h : noFalsyIntermediate o (jsSplit k '.') = true) :
    extractNestedValue o (some k) = seqTraverse o (jsSplit k '.') := by
  have he : extractNestedValue o (some k)
      = if k = "" then o
        else (jsSplit k '.').foldl
          (fun accumulator key =>
            if truthy accumulator then getField accumulator key else accumulator) o := rfl
  rw [he, if_neg hk]
  exact foldl_shortcircuit_eq _ o h

/-- Instance of C6 (amended) on a two-segment path through objects. -/
theorem claim6_witness :
    ("data.user" ≠ "")
    ∧ noFalsyIntermediate
        (.obj (.cons "data" (.obj (.cons "user" (.str "john") .nil)) .nil))
        (jsSplit "data.user" '.') = true
    ∧ extractNestedValue
        (.obj (.cons "data" (.obj (.cons "user" (.str "john") .nil)) .nil))
        (some "data.user")
      = seqTraverse
        (.obj (.cons "data" (.obj (.cons "user" (.str "john") .nil)) .nil))
        (jsSplit "data.user" '.') :=
  ⟨by decide, by decide,
    claim6_extract_matches_traversal _ "data.user" (by decide) (by decide)⟩

/-- C7 (counterexample): with localStorage backing during server-side
execution, `set` still lands in the shared in-memory state and a subsequent
`get` returns it — the pair is not an observable no-op. -/
theorem claim7_counterexample :
    tokenStorageGet cfgLocal true (tokenStorageSet cfgLocal true emptyWorld (some "abc"))
      = some "abc"
    ∧ (some "abc" : Option String) ≠ none := by
  decide

/-- C7 (amended): with localStorage backing on the server the provider's
get/set are no-ops (nothing is read from or written to durable storage,
cookies untouched), but the store still records the value in the shared
state, so `set(t)` followed by `get()` returns `t`. -/
theorem claim7_server_localstorage (cfg : ModuleOptionsM) (w : StorageWorld)
    (t : Option String) (h : cfg.tokenStorageType = "localStorage") :
    localStorageProviderGet true w cfg.tokenStorageKey = none
    ∧ (tokenStorageSet cfg true w t).localStore = w.localStore
    ∧ (tokenStorageSet cfg true w t).cookies = w.cookies
    ∧ tokenStorageGet cfg true (tokenStorageSet cfg true w t) = t := by
  refine ⟨rfl, ?_, ?_, ?_⟩
  · simp [tokenStorageSet, providerSet, h, localStorageProviderSet]
  · simp [tokenStorageSet, providerSet, h, localStorageProviderSet]
  · simp [tokenStorageGet, providerGet, h, localStorageProviderGet,
      tokenStorageSet, providerSet, localStorageProviderSet]

/-- Instance of C7 (amended) at token value `"abc"` over empty stores. -/
theorem claim7_witness :
    cfgLocal.tokenStorageType = "localStorage"
    ∧ (localStorageProviderGet true emptyWorld cfgLocal.tokenStorageKey = none
      ∧ (tokenStorageSet cfgLocal true emptyWorld (some "abc")).localStore
          = emptyWorld.localStore
      ∧ (tokenStorageSet cfgLocal true emptyWorld (some "abc")).cookies
          = emptyWorld.cookies
      ∧ tokenStorageGet cfgLocal true (tokenStorageSet cfgLocal true emptyWorld (some "abc"))
          = some "abc") :=
  ⟨rfl, claim7_server_localstorage cfgLocal emptyWorld (some "abc") rfl⟩

/-- C8 (counterexample): `set('')` does not leave `get()` without a token —
in cookie mode the cookie keeps an empty value and `get()` returns `''`,
and in localStorage mode the shared state still yields `''`. -/
theorem claim8_counterexample :
    tokenStorageGet cfgToken false
        (tokenStorageSet cfgToken false ⟨[("AUTH_TOKEN", "old")], [], some "old"⟩ (some ""))
      = some ""
    ∧ (tokenStorageSet cfgToken false ⟨[("AUTH_TOKEN", "old")], [], some "old"⟩
        (some "")).cookies.lookup "AUTH_TOKEN" = some ""
    ∧ tokenStorageGet cfgLocal false
        (tokenStorageSet cfgLocal false ⟨[], [("AUTH_TOKEN", "old")], some "old"⟩ (some ""))
      = some ""
    ∧ (some "" : Option String) ≠ none := by
  decide

/-- C8 (amended): set-then-get round-trips every non-empty token and
`set(undefined)` yields `get() = undefined`, in both backing modes and on
either execution side; `set('')`, however, removes only the localStorage
copy (client side) — in cookie mode an empty-valued cookie remains — and a
subsequent `get()` returns `''`, not `undefined`. -/
theorem claim8_roundtrip (cfg : ModuleOptionsM) (w : StorageWorld) (isServer : Bool)
    (t : String) (ht : t ≠ "") :
    tokenStorageGet cfg isServer (tokenStorageSet cfg isServer w (some t)) = some t
    ∧ tokenStorageGet cfg isServer (tokenStorageSet cfg isServer w none) = none
    ∧ tokenStorageGet cfg isServer (tokenStorageSet cfg isServer w (some "")) = some ""
    ∧ (cfg.tokenStorageType = "localStorage" → isServer = false →
        (tokenStorageSet cfg isServer w (some "")).localStore.lookup cfg.tokenStorageKey
          = none)
    ∧ (cfg.tokenStorageType ≠ "localStorage" →
        (tokenStorageSet cfg isServer w (some "")).cookies.lookup cfg.tokenStorageKey
          = some "") := by
  by_cases hls : cfg.tokenStorageType = "localStorage" <;>
    cases isServer <;>
      simp [tokenStorageGet, tokenStorageSet, providerGet, providerSet,
        localStorageProviderGet, localStorageProviderSet, cookieProviderGet,
        cookieProviderSet, hls, ht, lookup_upsertKey, lookup_eraseKey]

/-- Instance of C8 (amended) at token value `"abc"`, cookie mode, client. -/
theorem claim8_witness :
    ("abc" ≠ "")
    ∧ tokenStorageGet cfgToken false
        (tokenStorageSet cfgToken false emptyWorld (some "abc")) = some "abc" :=
  ⟨by decide, (claim8_roundtrip cfgToken emptyWorld false "abc" (by decide)).1⟩

/-- C9 (counterexample): an empty `redirect` query value is falsy, so the
code falls through to the post-login path, while the decision table as
claimed returns the carried (empty) value; likewise an empty configured
post-login path is skipped by the code but honoured by the claim. -/
theorem claim9_counterexample :
    checkGuest cfgToken true ⟨"/login", some ""⟩
      = { isAuthenticated := true, redirectTo := some "/dashboard" }
    ∧ checkGuestSpec cfgToken true ⟨"/login", some ""⟩
      = { isAuthenticated := true, redirectTo := some "" }
    ∧ checkGuest cfgToken true ⟨"/login", some ""⟩
        ≠ checkGuestSpec cfgToken true ⟨"/login", some ""⟩
    ∧ checkGuest { cfgToken with redirectPostLogin := some "" } true ⟨"/login", none⟩
      = { isAuthenticated := true, redirectTo := none }
    ∧ checkGuestSpec { cfgToken with redirectPostLogin := some "" } true ⟨"/login", none⟩
      = { isAuthenticated := true, redirectTo := some "" } := by
  decide

/-- C9 (amended): `checkGuest` implements the claimed decision table once
"carries a redirect query value" and "a post-login path is configured" are
read with JavaScript truthiness, i.e. as non-empty strings. -/
theorem claim9_checkGuest_decision (cfg : ModuleOptionsM) (isLoggedIn : Bool)
    (route : RouteM) :
    checkGuest cfg isLoggedIn route = checkGuestAmended cfg isLoggedIn route := by
  cases isLoggedIn
  · rfl
  · unfold checkGuest checkGuestAmended
    rcases hq : route.queryRedirect with _ | v <;>
      rcases hp : cfg.redirectPostLogin with _ | p <;>
        simp [truthyStr, hq, hp]

/-- C10: in token mode, when the login response has no value at the
configured `token.responseKey` path, the storage is updated with
`undefined`: afterwards `get()` yields no token, the cookie copy is gone
(cookie backing) and the localStorage copy is gone (client side) — a stale
token never survives such a login. -/
theorem claim10_login_clears_stale_token (cfg : ModuleOptionsM) (isServer : Bool)
    (w : StorageWorld) (response : JSValue)
    (h : extractNestedValue response (some cfg.tokenResponseKey) = .undefined) :
    tokenStorageGet cfg isServer (loginTokenStep cfg isServer w response) = none
    ∧ (cfg.tokenStorageType ≠ "localStorage" →
        (loginTokenStep cfg isServer w response).cookies.lookup cfg.tokenStorageKey = none)
    ∧ (cfg.tokenStorageType = "localStorage" → isServer = false →
        (loginTokenStep cfg isServer w response).localStore.lookup cfg.tokenStorageKey
          = none) := by
  unfold loginTokenStep
  rw [h]
  by_cases hls : cfg.tokenStorageType = "localStorage" <;>
    cases isServer <;>
      simp [jsTokenArg, tokenStorageGet, tokenStorageSet, providerGet, providerSet,
        localStorageProviderGet, localStorageProviderSet, cookieProviderGet,
        cookieProviderSet, hls, lookup_eraseKey]

/-- Instance of C10 on an empty login response body, cookie backing, with a
stale token in every slot. -/
theorem claim10_witness :
    extractNestedValue (.obj .nil) (some cfgToken.tokenResponseKey) = .undefined
    ∧ tokenStorageGet cfgToken false
        (loginTokenStep cfgToken false ⟨[("AUTH_TOKEN", "stale")], [], some "stale"⟩
          (.obj .nil)) = none :=
  ⟨by decide,
    (claim10_login_clears_stale_token cfgToken false
      ⟨[("AUTH_TOKEN", "stale")], [], some "stale"⟩ (.obj .nil) (by decide)).1⟩

end NuxtApi
